import Mathlib

/-
Verification development for the OptionChartFormatter repository.

The repository consists of two near-duplicate front-ends (a web one and a
desktop one), each containing a `process_option_chain` pipeline that reads a
raw spreadsheet table (banner row, header row, data rows), resolves columns
by name and occurrence ordinal, coerces cells to numbers, derives the
CE/PE MONEY and BEP metrics, and renders a styled 12-column output.

This file shallowly embeds that pipeline: Python strings are Lean `String`s
manipulated through an explicit `strip`; spreadsheet cells are a sum of
string, number and NaN; pandas numeric series are `List (Option ℚ)` with
NaN as `none`; exceptions are `Except` values.
-/

set_option maxHeartbeats 1000000

namespace OCF

/-- View an `Except` value as a `Sum`, to inherit decidable equality. -/
def exceptToSum : Except ε α → ε ⊕ α
  | .error e => .inl e
  | .ok a => .inr a

instance [DecidableEq ε] [DecidableEq α] : DecidableEq (Except ε α) := fun a b =>
  decidable_of_iff (exceptToSum a = exceptToSum b)
    (by cases a <;> cases b <;> simp [exceptToSum])

/-- Strip whitespace from both ends of a character list (Python `str.strip()`). -/
def stripChars (cs : List Char) : List Char :=
  ((cs.dropWhile Char.isWhitespace).reverse.dropWhile Char.isWhitespace).reverse

/-- Strip whitespace from both ends of a string (Python `str.strip()`). -/
def strip (s : String) : String :=
  (stripChars s.toList).asString

/-- A raw spreadsheet cell: a string, a number, or a missing value (pandas NaN). -/
inductive Cell
  | str : String → Cell
  | num : ℚ → Cell
  | nan : Cell
deriving DecidableEq

/-- Python `str(...)` applied to a cell. -/
def Cell.toStr : Cell → String
  | .str s => s
  | .num q => toString q
  | .nan => "nan"

/-- pandas `pd.notna`. -/
def Cell.notna : Cell → Bool
  | .nan => false
  | _ => true

/-- Value of a list of decimal digit characters. -/
def digitsVal (cs : List Char) : ℕ :=
  cs.foldl (fun n c => 10 * n + (c.toNat - 48)) 0

/-- Split a character list on the decimal-point character. -/
def splitOnDot (cs : List Char) : List (List Char) :=
  cs.foldr (fun c acc =>
    if c = '.' then [] :: acc
    else
      match acc with
      | [] => [[c]]
      | h :: t => (c :: h) :: t) [[]]

/-- Parse a decimal number from a character list, as `pd.to_numeric` does for
text cells: optional surrounding whitespace, optional sign, digits with an
optional single decimal point.  Unparsable text gives `none`. -/
def parseChars (cs : List Char) : Option ℚ :=
  let t := stripChars cs
  let neg : Bool := match t with | c :: _ => c = '-' | [] => false
  let body := match t with
    | c :: rest => if c = '-' || c = '+' then rest else t
    | [] => t
  match splitOnDot body with
  | [w] =>
    if w.isEmpty || !(w.all Char.isDigit) then none
    else some (if neg then -(digitsVal w : ℚ) else (digitsVal w : ℚ))
  | [w, f] =>
    if (w.isEmpty && f.isEmpty) || !(w.all Char.isDigit) || !(f.all Char.isDigit) then none
    else
      let v : ℚ := (digitsVal w : ℚ) + (digitsVal f : ℚ) / (10 : ℚ) ^ f.length
      some (if neg then -v else v)
  | _ => none

/-- Parse a decimal number from a string. -/
def parseNumStr (s : String) : Option ℚ :=
  parseChars s.toList

/-- `pd.to_numeric(..., errors="coerce")` on a single cell: numbers pass
through, parsable strings are parsed, everything else becomes the missing
marker `none`. -/
def to_numeric (c : Cell) : Option ℚ :=
  match c with
  | .num q => some q
  | .str s => parseNumStr s
  | .nan => none

/-- Round to the nearest integer, ties to even — the rounding used by
pandas `Series.round(0)` (numpy half-even rounding). -/
def rnd (q : ℚ) : ℚ :=
  let f : ℤ := ⌊q⌋
  let r : ℚ := q - f
  if r < 1 / 2 then (f : ℚ)
  else if 1 / 2 < r then ((f + 1 : ℤ) : ℚ)
  else if f % 2 = 0 then (f : ℚ) else ((f + 1 : ℤ) : ℚ)

/-- A numeric pandas series: one optional rational per data row. -/
abbrev Series := List (Option ℚ)

/-- Elementwise product of two series; a missing operand gives a missing result. -/
def sMul (a b : Series) : Series :=
  List.zipWith (fun x y => x.bind fun u => y.map fun v => u * v) a b

/-- Elementwise sum of two series; a missing operand gives a missing result. -/
def sAdd (a b : Series) : Series :=
  List.zipWith (fun x y => x.bind fun u => y.map fun v => u + v) a b

/-- Elementwise difference of two series; a missing operand gives a missing result. -/
def sSub (a b : Series) : Series :=
  List.zipWith (fun x y => x.bind fun u => y.map fun v => u - v) a b

/-- Division of a series by a scalar; missing stays missing. -/
def sDivC (a : Series) (c : ℚ) : Series :=
  a.map (Option.map fun u => u / c)

/-- `Series.round(0)`: elementwise `rnd`; missing stays missing. -/
def sRound (a : Series) : Series :=
  a.map (Option.map rnd)

/-- Header cleaning of the web front-end (`app.py`):
`str(h).strip() if pd.notna(h) and str(h).strip() != '' else f"Column_{i}"`. -/
def clean_header (i : ℕ) (c : Cell) : String :=
  if c.notna && !(strip c.toStr == "") then strip c.toStr else "Column_" ++ toString i

/-- The web front-end's header list: row index 1 of the raw table, cleaned. -/
def headersWeb (headerRow : List Cell) : List String :=
  headerRow.enum.map fun p => clean_header p.1 p.2

/-- `col_positions` of the web front-end: positions (in left-to-right order)
whose stripped name equals `name` exactly. -/
def col_positions_web (headers : List String) (name : String) : List ℕ :=
  (headers.enum.filter fun p => strip p.2 == name).map fun p => p.1

/-- `col_positions` of the desktop front-end: operates on the raw header
cells, keeping only string cells whose stripped value equals `name`. -/
def col_positions_desktop (headers : List Cell) (name : String) : List ℕ :=
  (headers.enum.filter fun p =>
    match p.2 with
    | Cell.str s => strip s == name
    | _ => false).map fun p => p.1

/-- Structured content of the `KeyError` raised by `series_by_pos`: the
requested column name, the requested occurrence, and the positions actually
found for that name. -/
structure ColError where
  name : String
  occurrence : ℕ
  positions : List ℕ
deriving DecidableEq

/-- Errors the pipeline can raise: an `IndexError` from reading the header
row of a too-short table, or the missing-column `KeyError`. -/
inductive PipeError
  | indexError
  | missingColumn : ColError → PipeError
deriving DecidableEq

/-- Projection of the data block at a column position (`data.iloc[:, p]`). -/
def colAt (data : List (List Cell)) (p : ℕ) : List Cell :=
  data.map fun r => r.getD p Cell.nan

/-- Common core of `series_by_pos` in both front-ends: index the resolved
position list by the occurrence ordinal, raising a `KeyError` that carries
the name, the occurrence and the found positions when too few matches exist. -/
def series_by_pos_core (pos_list : List ℕ) (data : List (List Cell))
    (name : String) (occurrence : ℕ) : Except PipeError (List Cell) :=
  if pos_list.length ≤ occurrence then
    .error (.missingColumn ⟨name, occurrence, pos_list⟩)
  else
    .ok (colAt data (pos_list.getD occurrence 0))

/-- `series_by_pos` of the web front-end. -/
def series_by_pos (headers : List String) (data : List (List Cell))
    (name : String) (occurrence : ℕ) : Except PipeError (List Cell) :=
  series_by_pos_core (col_positions_web headers name) data name occurrence

/-- `series_by_pos` of the desktop front-end. -/
def series_by_pos_d (headers : List Cell) (data : List (List Cell))
    (name : String) (occurrence : ℕ) : Except PipeError (List Cell) :=
  series_by_pos_core (col_positions_desktop headers name) data name occurrence

/-- The eight extracted series feeding the metric deriver (step 3 of both
`process_option_chain` variants).  `time` is kept as raw cells; the others
have been through `pd.to_numeric(..., errors="coerce")`. -/
structure Extracted where
  time : List Cell
  strike : Series
  ceOiChg : Series
  ceOi : Series
  ceVwap : Series
  peVwap : Series
  peOi : Series
  peOiChg : Series
deriving DecidableEq

/-- An output column: the `Time` column holds raw cells, every other column
holds numeric (optional) values. -/
inductive OutCol
  | cells : List Cell → OutCol
  | nums : Series → OutCol
deriving DecidableEq

/-- Number of rows of an output column. -/
def colLen : OutCol → ℕ
  | .cells l => l.length
  | .nums l => l.length

/-- Step 4 of `process_option_chain`: assemble the output columns, with the
derived `CE/PE MONEY` and `CE/PE BEP` columns, in the build order of the
source. -/
def build_out (e : Extracted) : List (String × OutCol) :=
  [("Time", .cells e.time),
   ("CE OI CHANGE", .nums e.ceOiChg),
   ("CE OI", .nums e.ceOi),
   ("CE MONEY", .nums (sRound (sDivC (sMul e.ceOiChg e.ceVwap) 10000000))),
   ("CE BEP", .nums (sRound (sAdd e.strike e.ceVwap))),
   ("CE VWAP", .nums e.ceVwap),
   ("Strike Price", .nums e.strike),
   ("PE VWAP", .nums e.peVwap),
   ("PE BEP", .nums (sRound (sSub e.strike e.peVwap))),
   ("PE MONEY", .nums (sRound (sDivC (sMul e.peOiChg e.peVwap) 10000000))),
   ("PE OI", .nums e.peOi),
   ("PE OI CHANGE", .nums e.peOiChg)]

/-- The `final_order` list of both front-ends. -/
def final_order : List String :=
  ["Time",
   "CE OI CHANGE", "CE OI", "CE MONEY", "CE BEP", "CE VWAP",
   "Strike Price",
   "PE VWAP", "PE BEP", "PE MONEY", "PE OI", "PE OI CHANGE"]

/-- `out[final_order]`: select the named columns in the fixed final order. -/
def reorder (cols : List (String × OutCol)) : List (String × OutCol) :=
  final_order.filterMap fun n => (cols.find? fun p => p.1 == n).map fun p => (n, p.2)

/-- Look up a named column of an output table. -/
def getCol (t : List (String × OutCol)) (n : String) : Option OutCol :=
  (t.find? fun p => p.1 == n).map fun p => p.2

/-- The canonical-table production of the web front-end
(`process_option_chain` in `app.py`): clean the header row, drop the banner
and header rows, extract the eight series positionally, coerce to numbers,
derive the metrics and reorder.  `raw.iloc[1]` raises an `IndexError` when
the table has fewer than two rows. -/
def process_option_chain_web (raw : List (List Cell)) :
    Except PipeError (List (String × OutCol)) :=
  if raw.length < 2 then .error .indexError
  else
    let headers := headersWeb (raw.getD 1 [])
    let data := raw.drop 2
    (series_by_pos headers data "Time" 0).bind fun time_s =>
    (series_by_pos headers data "Strike Price" 0).bind fun strike_c =>
    (series_by_pos headers data "OI Chg" 0).bind fun ce_oi_chg_c =>
    (series_by_pos headers data "OI" 0).bind fun ce_oi_c =>
    (series_by_pos headers data "VWAP" 0).bind fun ce_vwap_c =>
    (series_by_pos headers data "VWAP" 1).bind fun pe_vwap_c =>
    (series_by_pos headers data "OI" 1).bind fun pe_oi_c =>
    (series_by_pos headers data "OI Chg" 1).bind fun pe_oi_chg_c =>
    .ok (reorder (build_out
      { time := time_s
        strike := strike_c.map to_numeric
        ceOiChg := ce_oi_chg_c.map to_numeric
        ceOi := ce_oi_c.map to_numeric
        ceVwap := ce_vwap_c.map to_numeric
        peVwap := pe_vwap_c.map to_numeric
        peOi := pe_oi_c.map to_numeric
        peOiChg := pe_oi_chg_c.map to_numeric }))

/-- The canonical-table production of the desktop front-end
(`process_option_chain` in `desktopApp.py`): identical pipeline except that
the header row is used uncleaned and `col_positions` filters on raw string
cells. -/
def process_option_chain_desktop (raw : List (List Cell)) :
    Except PipeError (List (String × OutCol)) :=
  if raw.length < 2 then .error .indexError
  else
    let headers := raw.getD 1 []
    let data := raw.drop 2
    (series_by_pos_d headers data "Time" 0).bind fun time_s =>
    (series_by_pos_d headers data "Strike Price" 0).bind fun strike_c =>
    (series_by_pos_d headers data "OI Chg" 0).bind fun ce_oi_chg_c =>
    (series_by_pos_d headers data "OI" 0).bind fun ce_oi_c =>
    (series_by_pos_d headers data "VWAP" 0).bind fun ce_vwap_c =>
    (series_by_pos_d headers data "VWAP" 1).bind fun pe_vwap_c =>
    (series_by_pos_d headers data "OI" 1).bind fun pe_oi_c =>
    (series_by_pos_d headers data "OI Chg" 1).bind fun pe_oi_chg_c =>
    .ok (reorder (build_out
      { time := time_s
        strike := strike_c.map to_numeric
        ceOiChg := ce_oi_chg_c.map to_numeric
        ceOi := ce_oi_c.map to_numeric
        ceVwap := ce_vwap_c.map to_numeric
        peVwap := pe_vwap_c.map to_numeric
        peOi := pe_oi_c.map to_numeric
        peOiChg := pe_oi_chg_c.map to_numeric }))

/-- An openpyxl `ColorScaleRule` as constructed in `apply_formatting`:
anchor types for start/mid/end, the mid anchor's numeric parameter, and the
three hex colours. -/
structure ColorScaleRule where
  start_type : String
  start_color : String
  mid_type : String
  mid_value : ℚ
  mid_color : String
  end_type : String
  end_color : String
deriving DecidableEq

/-- The rule added to the OI-change columns B and L in `apply_formatting`
(`app.py`): min → light blue, the fixed number 0 → white, max → dark blue. -/
def oi_change_rule : ColorScaleRule :=
  { start_type := "min", start_color := "9DC3E6"
    mid_type := "num", mid_value := 0, mid_color := "FFFFFF"
    end_type := "max", end_color := "1F4E79" }

/-- The rule added to the OI columns C and K in `apply_formatting`
(`app.py`): min → light beige, 50th percentile → orange, max → dark brown. -/
def oi_rule : ColorScaleRule :=
  { start_type := "min", start_color := "F5F5DC"
    mid_type := "percentile", mid_value := 50, mid_color := "FFA07A"
    end_type := "max", end_color := "786C3B" }

/-- The rule added to the MONEY columns D and J in `apply_formatting`
(`app.py`): min → red, the fixed number 0 → yellow, max → green. -/
def money_rule : ColorScaleRule :=
  { start_type := "min", start_color := "F8696B"
    mid_type := "num", mid_value := 0, mid_color := "FFEB84"
    end_type := "max", end_color := "63BE7B" }

/-- The conditional-formatting rules added by `apply_formatting` in
`app.py`, in the order the three loops add them, keyed by column letter. -/
def conditional_rules : List (String × ColorScaleRule) :=
  (["B", "L"].map fun c => (c, oi_change_rule)) ++
  (["C", "K"].map fun c => (c, oi_rule)) ++
  (["D", "J"].map fun c => (c, money_rule))

/-- Look up the colour-scale rule attached to a column letter. -/
def ruleFor (col : String) : Option ColorScaleRule :=
  (conditional_rules.find? fun p => p.1 == col).map fun p => p.2

/-- Spreadsheet column letter of a 1-based column index (A = 1). -/
def columnLetter (n : ℕ) : String :=
  (Char.ofNat (64 + n)).toString

/-- The background fill of one worksheet cell as set by the cell loop of
`apply_formatting` in `app.py`: only header-row cells (row 1) receive a
`PatternFill`, with the header colour. -/
def cell_fill (row : ℕ) : Option String :=
  if row = 1 then some "4F81BD" else none

/-- All `(row, column, colour)` background fills applied by
`apply_formatting` over a worksheet with `nrows` data rows and `ncols`
columns (rows are 1-based, row 1 is the header). -/
def applied_fills (nrows ncols : ℕ) : List (ℕ × ℕ × String) :=
  (List.range' 1 (nrows + 1)).foldr
    (fun r acc =>
      ((List.range' 1 ncols).filterMap fun c => (cell_fill r).map fun f => (r, c, f)) ++ acc)
    []

/-- The three anchor policies occurring across the two rendering surfaces:
the spreadsheet rules anchor the middle colour at the fixed value 0 or at
the 50th percentile; the preview's matplotlib colormap anchors it at the
midpoint of the linearly normalised min–max range. -/
inductive AnchorPolicy
  | zeroMid
  | percentile50Mid
  | rangeMid
deriving DecidableEq

/-- A per-column colour scale: anchor policy plus min/mid/max hex colours. -/
structure ColumnScale where
  policy : AnchorPolicy
  lo : String
  mid : String
  hi : String
deriving DecidableEq

/-- Column letter (1-based position in `final_order`) of a canonical column
name. -/
def letterOf (name : String) : Option String :=
  (final_order.indexOf? name).map fun i => columnLetter (i + 1)

/-- The colour scale the persisted spreadsheet gives a canonical column:
translate the `ColorScaleRule` added by `apply_formatting` for the column's
letter. -/
def excel_scale (name : String) : Option ColumnScale :=
  (letterOf name).bind fun c =>
    (ruleFor c).map fun r =>
      { policy := if r.mid_type == "num" then .zeroMid else .percentile50Mid
        lo := r.start_color, mid := r.mid_color, hi := r.end_color }

/-- The colour maps of `style_dataframe_for_preview` in `app.py`
(`columns_to_style`): matplotlib `LinearSegmentedColormap.from_list`
triples applied through `background_gradient`, which normalises linearly
over the column's min–max range. -/
def columns_to_style : List (String × (String × String × String)) :=
  [("CE OI CHANGE", ("9DC3E6", "FFFFFF", "1F4E79")),
   ("PE OI CHANGE", ("9DC3E6", "FFFFFF", "1F4E79")),
   ("CE OI", ("FFF2CC", "F4B183", "8B4513")),
   ("PE OI", ("FFF2CC", "F4B183", "8B4513")),
   ("CE MONEY", ("F8696B", "FFEB84", "63BE7B")),
   ("PE MONEY", ("F8696B", "FFEB84", "63BE7B"))]

/-- The colour scale the interactive preview gives a canonical column. -/
def preview_scale (name : String) : Option ColumnScale :=
  (columns_to_style.find? fun p => p.1 == name).map fun p =>
    { policy := .rangeMid, lo := p.2.1, mid := p.2.2.1, hi := p.2.2.2 }

/-- Stable descending insertion of an indexed value: inserted before the
first strictly smaller value, so equal values keep original index order. -/
def insertDesc (x : ℕ × ℚ) : List (ℕ × ℚ) → List (ℕ × ℚ)
  | [] => [x]
  | y :: ys => if y.2 ≤ x.2 then x :: y :: ys else y :: insertDesc x ys

/-- Stable descending sort of indexed values. -/
def sortDesc (l : List (ℕ × ℚ)) : List (ℕ × ℚ) :=
  l.foldr insertDesc []

/-- Modelled from the spec: the Highlight Selector operation
`joint_top_k(column_a, column_b, k)` is absent from the source; per the
spec's contract it ranks rows by each column descending with the stable
tie-break, takes the top `k` row-ids of each ranking, and intersects. -/
def joint_top_k (a b : List ℚ) (k : ℕ) : List ℕ :=
  let top := fun (xs : List ℚ) => ((sortDesc xs.enum).take k).map fun p => p.1
  (top a).filter fun i => (top b).contains i

/-! ### Library lemmas about stripping and positional scanning -/

theorem dropWhile_head_not {p : α → Bool} {l : List α} {a : α}
    (h : (l.dropWhile p).head? = some a) : p a = false := by
  have hh := List.head?_dropWhile_not p l
  rw [h] at hh
  exact hh

theorem dropWhile_idem (p : α → Bool) (l : List α) :
    (l.dropWhile p).dropWhile p = l.dropWhile p := by
  cases h : l.dropWhile p with
  | nil => simp
  | cons a t =>
    have ha : p a = false := dropWhile_head_not (by rw [h]; rfl)
    simp [List.dropWhile_cons, ha]

theorem dropWhile_suffix_ex (p : α → Bool) (l : List α) :
    ∃ s, l = s ++ l.dropWhile p := by
  induction l with
  | nil => exact ⟨[], rfl⟩
  | cons a t ih =>
    by_cases h : p a
    · obtain ⟨s, hs⟩ := ih
      exact ⟨a :: s, by simp [List.dropWhile_cons, h, ← hs]⟩
    · exact ⟨[], by simp [List.dropWhile_cons, h]⟩

/-- Front-cleanliness: the head, if any, fails the predicate. -/
def FrontClean (p : α → Bool) (l : List α) : Prop :=
  ∀ a, l.head? = some a → p a = false

theorem frontClean_dropWhile (p : α → Bool) (l : List α) :
    FrontClean p (l.dropWhile p) := fun _ h => dropWhile_head_not h

theorem dropWhile_of_frontClean {p : α → Bool} {l : List α}
    (h : FrontClean p l) : l.dropWhile p = l := by
  cases l with
  | nil => rfl
  | cons a t => simp [List.dropWhile_cons, h a rfl]

/-- Stripping from the back (reverse, drop, reverse) preserves a clean front. -/
theorem frontClean_backStrip {p : α → Bool} {l : List α} (h : FrontClean p l) :
    FrontClean p ((l.reverse.dropWhile p).reverse) := by
  intro a ha
  obtain ⟨s, hs⟩ := dropWhile_suffix_ex p l.reverse
  have hl : l = (l.reverse.dropWhile p).reverse ++ s.reverse := by
    have := congrArg List.reverse hs
    simpa [List.reverse_append] using this
  apply h
  rw [hl, List.head?_append, ha]
  rfl

theorem stripChars_idem (l : List Char) :
    stripChars (stripChars l) = stripChars l := by
  have h1 : FrontClean Char.isWhitespace (stripChars l) :=
    frontClean_backStrip (frontClean_dropWhile _ _)
  have h2 : (stripChars l).dropWhile Char.isWhitespace = stripChars l :=
    dropWhile_of_frontClean h1
  show ((((stripChars l).dropWhile _).reverse.dropWhile _).reverse) = stripChars l
  rw [h2]
  show (((((l.dropWhile _).reverse.dropWhile _).reverse).reverse.dropWhile _).reverse) =
    stripChars l
  rw [List.reverse_reverse, dropWhile_idem]
  rfl

theorem strip_idem (s : String) : strip (strip s) = strip s := by
  unfold strip
  rw [List.toList_asString, stripChars_idem]

/-- Positions kept by an indexed filter over `enum` are exactly the filtered
positional scan of `range`. -/
theorem enum_filter_map_eq (f : α → Bool) (d : α) (l : List α) :
    ((l.enum.filter fun p => f p.2).map fun p => p.1) =
      (List.range l.length).filter fun i => f (l.getD i d) := by
  induction l with
  | nil => rfl
  | cons a t ih =>
    rw [List.enum_cons', List.length_cons, List.range_succ_eq_map,
        List.filter_cons, List.filter_cons]
    have hmap : ((t.enum.map (Prod.map (· + 1) id)).filter fun p => f p.2) =
        ((t.enum.filter fun p => f p.2).map (Prod.map (· + 1) id)) := by
      rw [List.filter_map]; rfl
    have hr : (((List.range t.length).map Nat.succ).filter fun i => f ((a :: t).getD i d)) =
        (((List.range t.length).filter fun i => f (t.getD i d)).map Nat.succ) := by
      rw [List.filter_map]; rfl
    have htail : (((t.enum.map (Prod.map (· + 1) id)).filter fun p => f p.2).map fun p => p.1) =
        (((List.range t.length).map Nat.succ).filter fun i => f ((a :: t).getD i d)) := by
      rw [hmap, hr, ← ih, List.map_map, List.map_map]; rfl
    have h0l : (((0 : ℕ), a)).2 = a := rfl
    have h0r : (a :: t).getD 0 d = a := rfl
    rw [h0l, h0r]
    by_cases hfa : f a
    · rw [if_pos hfa, if_pos hfa, List.map_cons, htail]
    · rw [if_neg (by simp [hfa]), if_neg (by simp [hfa]), htail]

/-! ### Facts about column resolution and extraction -/

/-- The web `col_positions` is the left-to-right scan of all positions whose
stripped name equals the requested name. -/
theorem col_positions_web_eq (headers : List String) (name : String) :
    col_positions_web headers name =
      (List.range headers.length).filter fun i => strip (headers.getD i "") == name := by
  unfold col_positions_web
  exact enum_filter_map_eq (fun x => strip x == name) "" headers

/-- The desktop `col_positions` is the left-to-right scan of all positions
holding a string cell whose stripped value equals the requested name. -/
theorem col_positions_desktop_eq (headers : List Cell) (name : String) :
    col_positions_desktop headers name =
      (List.range headers.length).filter fun i =>
        match headers.getD i Cell.nan with
        | Cell.str s => strip s == name
        | _ => false := by
  unfold col_positions_desktop
  exact enum_filter_map_eq
    (fun c => match c with | Cell.str s => strip s == name | _ => false) Cell.nan headers

theorem series_by_pos_core_ok {pos_list : List ℕ} {data : List (List Cell)}
    {name : String} {occurrence : ℕ} (h : occurrence < pos_list.length) :
    series_by_pos_core pos_list data name occurrence =
      .ok (colAt data (pos_list.getD occurrence 0)) := by
  unfold series_by_pos_core
  rw [if_neg (by omega)]

theorem series_by_pos_core_missing {pos_list : List ℕ} {data : List (List Cell)}
    {name : String} {occurrence : ℕ} (h : pos_list.length ≤ occurrence) :
    series_by_pos_core pos_list data name occurrence =
      .error (.missingColumn ⟨name, occurrence, pos_list⟩) := by
  unfold series_by_pos_core
  rw [if_pos h]

theorem series_by_pos_core_error_shape {pos_list : List ℕ} {data : List (List Cell)}
    {name : String} {occurrence : ℕ} {e : PipeError}
    (h : series_by_pos_core pos_list data name occurrence = .error e) :
    e = .missingColumn ⟨name, occurrence, pos_list⟩ := by
  unfold series_by_pos_core at h
  split at h
  · cases h; rfl
  · cases h

theorem series_by_pos_core_ok_shape {pos_list : List ℕ} {data : List (List Cell)}
    {name : String} {occurrence : ℕ} {c : List Cell}
    (h : series_by_pos_core pos_list data name occurrence = .ok c) :
    c = colAt data (pos_list.getD occurrence 0) := by
  unfold series_by_pos_core at h
  split at h
  · cases h
  · cases h; rfl

theorem colAt_length (data : List (List Cell)) (p : ℕ) :
    (colAt data p).length = data.length := by
  unfold colAt
  exact List.length_map _ _

theorem colAt_getElem? (data : List (List Cell)) (p i : ℕ) :
    (colAt data p)[i]? = (data[i]?).map fun r => r.getD p Cell.nan := by
  unfold colAt
  exact List.getElem?_map _ _ _

/-- A missing `VWAP` operand makes the derived product column missing at
that row: the row-wise `(a * v) / 10^7` then `round` chain propagates
`none`. -/
theorem money_col_getElem?_none {a v : Series} {i : ℕ}
    (ha : i < a.length) (hv : v[i]? = some none) :
    (sRound (sDivC (sMul a v) 10000000))[i]? = some none := by
  obtain ⟨x, hx⟩ : ∃ x, a[i]? = some x := ⟨a[i], List.getElem?_eq_getElem ha⟩
  unfold sRound sDivC sMul
  rw [List.getElem?_map, List.getElem?_map, List.getElem?_zipWith, hx, hv]
  cases x <;> rfl

/-- A missing `VWAP` operand makes the derived sum column missing at that
row. -/
theorem bep_col_getElem?_none {s v : Series} {i : ℕ}
    (hs : i < s.length) (hv : v[i]? = some none) :
    (sRound (sAdd s v))[i]? = some none := by
  obtain ⟨x, hx⟩ : ∃ x, s[i]? = some x := ⟨s[i], List.getElem?_eq_getElem hs⟩
  unfold sRound sAdd
  rw [List.getElem?_map, List.getElem?_zipWith, hx, hv]
  cases x <;> rfl

theorem money_col_getElem?_some {a v : Series} {i : ℕ} {x y : ℚ}
    (ha : a[i]? = some (some x)) (hv : v[i]? = some (some y)) :
    (sRound (sDivC (sMul a v) 10000000))[i]? = some (some (rnd (x * y / 10000000))) := by
  unfold sRound sDivC sMul
  rw [List.getElem?_map, List.getElem?_map, List.getElem?_zipWith, ha, hv]
  rfl

theorem add_col_getElem?_some {s v : Series} {i : ℕ} {x y : ℚ}
    (hs : s[i]? = some (some x)) (hv : v[i]? = some (some y)) :
    (sRound (sAdd s v))[i]? = some (some (rnd (x + y))) := by
  unfold sRound sAdd
  rw [List.getElem?_map, List.getElem?_zipWith, hs, hv]
  rfl

theorem sub_col_getElem?_some {s v : Series} {i : ℕ} {x y : ℚ}
    (hs : s[i]? = some (some x)) (hv : v[i]? = some (some y)) :
    (sRound (sSub s v))[i]? = some (some (rnd (x - y))) := by
  unfold sRound sSub
  rw [List.getElem?_map, List.getElem?_zipWith, hs, hv]
  rfl

theorem sMul_length (a b : Series) : (sMul a b).length = min a.length b.length :=
  List.length_zipWith _ _ _

theorem sAdd_length (a b : Series) : (sAdd a b).length = min a.length b.length :=
  List.length_zipWith _ _ _

theorem sSub_length (a b : Series) : (sSub a b).length = min a.length b.length :=
  List.length_zipWith _ _ _

theorem sDivC_length (a : Series) (c : ℚ) : (sDivC a c).length = a.length :=
  List.length_map _ _

theorem sRound_length (a : Series) : (sRound a).length = a.length :=
  List.length_map _ _

/-! ### Header resolution facts -/

theorem headersWeb_length (hr : List Cell) : (headersWeb hr).length = hr.length := by
  unfold headersWeb
  rw [List.length_map, List.enum_length]

theorem headersWeb_getElem? (hr : List Cell) (i : ℕ) :
    (headersWeb hr)[i]? = (hr[i]?).map fun c => clean_header i c := by
  unfold headersWeb
  rw [List.getElem?_map, List.getElem?_enum]
  cases hr[i]? <;> rfl

/-- A header cell that is a string and non-blank after stripping. -/
def isNonBlankStr : Cell → Bool
  | .str s => !(strip s == "")
  | _ => false

theorem clean_header_str {i : ℕ} {s : String} (h : ¬ strip s = "") :
    clean_header i (Cell.str s) = strip s := by
  unfold clean_header
  rw [if_pos]
  · rfl
  · simp [Cell.notna, Cell.toStr, h]

/-- On a header row of non-blank string cells, the web scan (over cleaned
headers) and the desktop scan (over raw cells) find the same positions. -/
theorem col_positions_agree {hr : List Cell}
    (h : hr.all isNonBlankStr = true) (name : String) :
    col_positions_web (headersWeb hr) name = col_positions_desktop hr name := by
  rw [col_positions_web_eq, col_positions_desktop_eq, headersWeb_length]
  apply List.filter_congr
  intro i hi
  rw [List.mem_range] at hi
  have hcell : ∃ c, hr[i]? = some c := ⟨hr[i], List.getElem?_eq_getElem hi⟩
  obtain ⟨c, hc⟩ := hcell
  have hmem : c ∈ hr := List.getElem?_mem hc
  have hnb : isNonBlankStr c = true := (List.all_eq_true.mp h) c hmem
  obtain ⟨s, rfl⟩ : ∃ s, c = Cell.str s := by
    cases c with
    | str s => exact ⟨s, rfl⟩
    | num q => simp [isNonBlankStr] at hnb
    | nan => simp [isNonBlankStr] at hnb
  have hs : ¬ strip s = "" := by
    simpa [isNonBlankStr] using hnb
  have hget : (headersWeb hr).getD i "" = strip s := by
    rw [List.getD_eq_getElem?_getD, headersWeb_getElem?, hc]
    simp [clean_header_str hs]
  have hgetd : hr.getD i Cell.nan = Cell.str s := by
    rw [List.getD_eq_getElem?_getD, hc]
    rfl
  rw [hget, hgetd, strip_idem]

/-- The two front-ends' pipelines agree whenever the header row consists of
non-blank string cells. -/
theorem process_agree {raw : List (List Cell)}
    (h : (raw.getD 1 []).all isNonBlankStr = true) :
    process_option_chain_web raw = process_option_chain_desktop raw := by
  unfold process_option_chain_web process_option_chain_desktop
  simp only [series_by_pos, series_by_pos_d, col_positions_agree h]

/-! ### Error classification of the pipeline -/

theorem series_by_pos_core_ne_index {pos_list : List ℕ} {data : List (List Cell)}
    {name : String} {occurrence : ℕ} :
    series_by_pos_core pos_list data name occurrence ≠ .error .indexError := by
  intro h
  have := series_by_pos_core_error_shape h
  cases this

theorem bind_ne_index {α β : Type} {x : Except PipeError α} {f : α → Except PipeError β}
    (hx : x ≠ .error .indexError)
    (hf : ∀ a, x = .ok a → f a ≠ .error .indexError) :
    x.bind f ≠ .error .indexError := by
  cases x with
  | error e =>
    intro hc
    have he : e = PipeError.indexError := by
      cases (show (Except.error e : Except PipeError β) = .error .indexError from hc)
      rfl
    exact hx (by rw [he])
  | ok a =>
    intro hc
    exact hf a rfl hc

/-- With at least two rows, the web pipeline can only fail with a
missing-column error, never with the structural `IndexError`. -/
theorem process_web_ne_index {raw : List (List Cell)} (h : ¬ raw.length < 2) :
    process_option_chain_web raw ≠ .error .indexError := by
  unfold process_option_chain_web
  rw [if_neg h]
  refine bind_ne_index series_by_pos_core_ne_index fun a _ => ?_
  refine bind_ne_index series_by_pos_core_ne_index fun a _ => ?_
  refine bind_ne_index series_by_pos_core_ne_index fun a _ => ?_
  refine bind_ne_index series_by_pos_core_ne_index fun a _ => ?_
  refine bind_ne_index series_by_pos_core_ne_index fun a _ => ?_
  refine bind_ne_index series_by_pos_core_ne_index fun a _ => ?_
  refine bind_ne_index series_by_pos_core_ne_index fun a _ => ?_
  refine bind_ne_index series_by_pos_core_ne_index fun a _ => ?_
  intro hc
  cases hc

/-- The web pipeline raises the structural `IndexError` exactly on inputs
with fewer than two rows. -/
theorem process_web_index_iff (raw : List (List Cell)) :
    process_option_chain_web raw = .error .indexError ↔ raw.length < 2 := by
  constructor
  · intro h
    by_contra hn
    exact process_web_ne_index hn h
  · intro h
    unfold process_option_chain_web
    rw [if_pos h]

theorem ok_bind {ε α β : Type} (a : α) (f : α → Except ε β) :
    (Except.ok a : Except ε α).bind f = f a := rfl

theorem error_bind {ε α β : Type} (e : ε) (f : α → Except ε β) :
    (Except.error e : Except ε α).bind f = .error e := rfl

/-- Inversion of a successful web-pipeline run: all eight extractions
succeeded and the result is the reordered build over the coerced series. -/
theorem process_web_ok_inv {raw : List (List Cell)} {t : List (String × OutCol)}
    (h : process_option_chain_web raw = .ok t) :
    ∃ ts sc oc1 oc2 vc1 vc2 pc1 pc2,
      series_by_pos (headersWeb (raw.getD 1 [])) (raw.drop 2) "Time" 0 = .ok ts ∧
      series_by_pos (headersWeb (raw.getD 1 [])) (raw.drop 2) "Strike Price" 0 = .ok sc ∧
      series_by_pos (headersWeb (raw.getD 1 [])) (raw.drop 2) "OI Chg" 0 = .ok oc1 ∧
      series_by_pos (headersWeb (raw.getD 1 [])) (raw.drop 2) "OI" 0 = .ok oc2 ∧
      series_by_pos (headersWeb (raw.getD 1 [])) (raw.drop 2) "VWAP" 0 = .ok vc1 ∧
      series_by_pos (headersWeb (raw.getD 1 [])) (raw.drop 2) "VWAP" 1 = .ok vc2 ∧
      series_by_pos (headersWeb (raw.getD 1 [])) (raw.drop 2) "OI" 1 = .ok pc1 ∧
      series_by_pos (headersWeb (raw.getD 1 [])) (raw.drop 2) "OI Chg" 1 = .ok pc2 ∧
      t = reorder (build_out
        { time := ts, strike := sc.map to_numeric, ceOiChg := oc1.map to_numeric,
          ceOi := oc2.map to_numeric, ceVwap := vc1.map to_numeric,
          peVwap := vc2.map to_numeric, peOi := pc1.map to_numeric,
          peOiChg := pc2.map to_numeric }) := by
  unfold process_option_chain_web at h
  split at h
  · cases h
  · dsimp only at h
    cases h1 : series_by_pos (headersWeb (raw.getD 1 [])) (raw.drop 2) "Time" 0 with
    | error e => rw [h1, error_bind] at h; cases h
    | ok ts =>
    rw [h1, ok_bind] at h
    cases h2 : series_by_pos (headersWeb (raw.getD 1 [])) (raw.drop 2) "Strike Price" 0 with
    | error e => rw [h2, error_bind] at h; cases h
    | ok sc =>
    rw [h2, ok_bind] at h
    cases h3 : series_by_pos (headersWeb (raw.getD 1 [])) (raw.drop 2) "OI Chg" 0 with
    | error e => rw [h3, error_bind] at h; cases h
    | ok oc1 =>
    rw [h3, ok_bind] at h
    cases h4 : series_by_pos (headersWeb (raw.getD 1 [])) (raw.drop 2) "OI" 0 with
    | error e => rw [h4, error_bind] at h; cases h
    | ok oc2 =>
    rw [h4, ok_bind] at h
    cases h5 : series_by_pos (headersWeb (raw.getD 1 [])) (raw.drop 2) "VWAP" 0 with
    | error e => rw [h5, error_bind] at h; cases h
    | ok vc1 =>
    rw [h5, ok_bind] at h
    cases h6 : series_by_pos (headersWeb (raw.getD 1 [])) (raw.drop 2) "VWAP" 1 with
    | error e => rw [h6, error_bind] at h; cases h
    | ok vc2 =>
    rw [h6, ok_bind] at h
    cases h7 : series_by_pos (headersWeb (raw.getD 1 [])) (raw.drop 2) "OI" 1 with
    | error e => rw [h7, error_bind] at h; cases h
    | ok pc1 =>
    rw [h7, ok_bind] at h
    cases h8 : series_by_pos (headersWeb (raw.getD 1 [])) (raw.drop 2) "OI Chg" 1 with
    | error e => rw [h8, error_bind] at h; cases h
    | ok pc2 =>
    rw [h8, ok_bind] at h
    cases h
    exact ⟨ts, sc, oc1, oc2, vc1, vc2, pc1, pc2,
      rfl, rfl, rfl, rfl, rfl, rfl, rfl, rfl, rfl⟩

theorem series_by_pos_ok_length {headers : List String} {data : List (List Cell)}
    {name : String} {occurrence : ℕ} {c : List Cell}
    (h : series_by_pos headers data name occurrence = .ok c) :
    c.length = data.length := by
  have hs := series_by_pos_core_ok_shape h
  rw [hs, colAt_length]

/-- `out[final_order]` over the freshly built table is the expected
12-column table in canonical order. -/
theorem reorder_build_out_eq (e : Extracted) :
    reorder (build_out e) =
      [("Time", .cells e.time),
       ("CE OI CHANGE", .nums e.ceOiChg),
       ("CE OI", .nums e.ceOi),
       ("CE MONEY", .nums (sRound (sDivC (sMul e.ceOiChg e.ceVwap) 10000000))),
       ("CE BEP", .nums (sRound (sAdd e.strike e.ceVwap))),
       ("CE VWAP", .nums e.ceVwap),
       ("Strike Price", .nums e.strike),
       ("PE VWAP", .nums e.peVwap),
       ("PE BEP", .nums (sRound (sSub e.strike e.peVwap))),
       ("PE MONEY", .nums (sRound (sDivC (sMul e.peOiChg e.peVwap) 10000000))),
       ("PE OI", .nums e.peOi),
       ("PE OI CHANGE", .nums e.peOiChg)] := rfl

theorem reorder_build_out_names (e : Extracted) :
    ((reorder (build_out e)).map fun p => p.1) = final_order := rfl

/-! ### Concrete tables used by witnesses and counterexamples -/

/-- A two-row table: banner plus a complete header row, no data rows. -/
def two_row_table : List (List Cell) :=
  [[Cell.str "Exported data"],
   [.str "Time", .str "Strike Price", .str "OI Chg", .str "OI",
    .str "VWAP", .str "VWAP", .str "OI", .str "OI Chg"]]

/-- A three-row table: banner, complete header row, one all-missing data row. -/
def three_row_table : List (List Cell) :=
  [[Cell.str "Exported data"],
   [.str "Time", .str "Strike Price", .str "OI Chg", .str "OI",
    .str "VWAP", .str "VWAP", .str "OI", .str "OI Chg"],
   [.nan, .nan, .nan, .nan, .nan, .nan, .nan, .nan]]

/-- The canonical table produced from `three_row_table`. -/
def three_row_out : List (String × OutCol) :=
  [("Time", .cells [Cell.nan]), ("CE OI CHANGE", .nums [none]), ("CE OI", .nums [none]),
   ("CE MONEY", .nums [none]), ("CE BEP", .nums [none]), ("CE VWAP", .nums [none]),
   ("Strike Price", .nums [none]), ("PE VWAP", .nums [none]), ("PE BEP", .nums [none]),
   ("PE MONEY", .nums [none]), ("PE OI", .nums [none]), ("PE OI CHANGE", .nums [none])]

/-- An extracted-series bundle with the spec's formula-check row: Strike 100,
CE VWAP 5.4, CE OI change 2,000,000 (and the same figures on the put side). -/
def formula_row : Extracted :=
  { time := [Cell.nan], strike := [some 100], ceOiChg := [some 2000000],
    ceOi := [some 1], ceVwap := [some (27 / 5)], peVwap := [some (27 / 5)],
    peOi := [some 1], peOiChg := [some 2000000] }

/-- An extracted-series bundle whose CE VWAP is missing in row 0 while every
other operand is present. -/
def missing_vwap_row : Extracted :=
  { time := [Cell.nan], strike := [some 100], ceOiChg := [some 5],
    ceOi := [some 1], ceVwap := [none], peVwap := [some 1],
    peOi := [some 1], peOiChg := [some 1] }

/-! ### Claim theorems -/

/-- Claim C1: the Metric Deriver computes, row-wise,
`CE MONEY = round((CE_OI_CHANGE * CE_VWAP) / 10^7)`,
`CE BEP = round(Strike + CE_VWAP)`, `PE BEP = round(Strike - PE_VWAP)` and
`PE MONEY = round((PE_OI_CHANGE * PE_VWAP) / 10^7)`, rounding to the nearest
integer; in particular Strike 100, CE VWAP 5.4 and CE OI change 2,000,000
give CE BEP 105 and CE MONEY 1. -/
theorem claim_C1 :
    (∀ (e : Extracted) (i : ℕ) (a v s pv w : ℚ),
      e.ceOiChg[i]? = some (some a) → e.ceVwap[i]? = some (some v) →
      e.strike[i]? = some (some s) → e.peVwap[i]? = some (some pv) →
      e.peOiChg[i]? = some (some w) →
      (∃ m, getCol (build_out e) "CE MONEY" = some (.nums m) ∧
        m[i]? = some (some (rnd (a * v / 10000000)))) ∧
      (∃ b, getCol (build_out e) "CE BEP" = some (.nums b) ∧
        b[i]? = some (some (rnd (s + v)))) ∧
      (∃ pb, getCol (build_out e) "PE BEP" = some (.nums pb) ∧
        pb[i]? = some (some (rnd (s - pv)))) ∧
      (∃ pm, getCol (build_out e) "PE MONEY" = some (.nums pm) ∧
        pm[i]? = some (some (rnd (w * pv / 10000000))))) ∧
    rnd (100 + 27 / 5) = 105 ∧ rnd (2000000 * (27 / 5) / 10000000) = 1 := by
  refine ⟨fun e i a v s pv w h1 h2 h3 h4 h5 =>
      ⟨⟨_, rfl, money_col_getElem?_some h1 h2⟩, ⟨_, rfl, add_col_getElem?_some h3 h2⟩,
       ⟨_, rfl, sub_col_getElem?_some h3 h4⟩, ⟨_, rfl, money_col_getElem?_some h5 h4⟩⟩,
    ?_, ?_⟩
  · rw [rnd]; norm_num
  · rw [rnd]; norm_num

/-- Witness for C1 at the spec's formula-check row. -/
theorem claim_C1_witness :
    (∃ m, getCol (build_out formula_row) "CE MONEY" = some (.nums m) ∧
      m[0]? = some (some (rnd ((2000000 : ℚ) * (27 / 5) / 10000000)))) ∧
    (∃ b, getCol (build_out formula_row) "CE BEP" = some (.nums b) ∧
      b[0]? = some (some (rnd ((100 : ℚ) + 27 / 5)))) ∧
    (∃ pb, getCol (build_out formula_row) "PE BEP" = some (.nums pb) ∧
      pb[0]? = some (some (rnd ((100 : ℚ) - 27 / 5)))) ∧
    (∃ pm, getCol (build_out formula_row) "PE MONEY" = some (.nums pm) ∧
      pm[0]? = some (some (rnd ((2000000 : ℚ) * (27 / 5) / 10000000)))) :=
  claim_C1.1 formula_row 0 2000000 (27 / 5) 100 (27 / 5) 2000000 rfl rfl rfl rfl rfl

/-- Claim C2: `extract(name, occurrence)` scans header positions left to
right, collects every position whose stripped name equals `name` exactly,
returns the data column at the `(occurrence+1)`-th match, and otherwise
fails with a missing-column error carrying the name, the occurrence and the
found positions; `extract("VWAP", 1)` picks the second VWAP column and
`extract("VWAP", 2)` fails listing exactly 2 positions. -/
theorem claim_C2 :
    (∀ (headers : List String) (data : List (List Cell)) (name : String) (occurrence : ℕ),
      (col_positions_web headers name =
        (List.range headers.length).filter fun i => strip (headers.getD i "") == name) ∧
      (occurrence < (col_positions_web headers name).length →
        series_by_pos headers data name occurrence =
          .ok (colAt data ((col_positions_web headers name).getD occurrence 0))) ∧
      ((col_positions_web headers name).length ≤ occurrence →
        series_by_pos headers data name occurrence =
          .error (.missingColumn ⟨name, occurrence, col_positions_web headers name⟩))) ∧
    series_by_pos ["Time", "VWAP", "VWAP"] [[.str "t", .num 1, .num 2]] "VWAP" 1 =
      .ok [Cell.num 2] ∧
    series_by_pos ["Time", "VWAP", "VWAP"] [[.str "t", .num 1, .num 2]] "VWAP" 2 =
      .error (.missingColumn ⟨"VWAP", 2, [1, 2]⟩) ∧
    (col_positions_web ["Time", "VWAP", "VWAP"] "VWAP").length = 2 := by
  refine ⟨fun headers data name occurrence =>
      ⟨col_positions_web_eq headers name,
       fun h => series_by_pos_core_ok h,
       fun h => series_by_pos_core_missing h⟩,
    by decide, by decide, by decide⟩

/-- Witness for C2's conditional parts at a concrete header. -/
theorem claim_C2_witness :
    series_by_pos ["VWAP", "VWAP"] [] "VWAP" 1 =
      .ok (colAt [] ((col_positions_web ["VWAP", "VWAP"] "VWAP").getD 1 0)) :=
  (claim_C2.1 ["VWAP", "VWAP"] [] "VWAP" 1).2.1 (by decide)

/-- Claim C3 counterexample: the 2nd output column (CE OI CHANGE) receives
the blue scale 9DC3E6/FFFFFF/1F4E79, not the claimed F8696B/FFEB84/63BE7B. -/
theorem claim_C3_counterexample :
    columnLetter 2 = "B" ∧ final_order.getD 1 "" = "CE OI CHANGE" ∧
    ruleFor "B" =
      some { start_type := "min", start_color := "9DC3E6", mid_type := "num", mid_value := 0,
             mid_color := "FFFFFF", end_type := "max", end_color := "1F4E79" } ∧
    ¬ ruleFor "B" =
      some { start_type := "min", start_color := "F8696B", mid_type := "num", mid_value := 0,
             mid_color := "FFEB84", end_type := "max", end_color := "63BE7B" } := by
  decide

/-- Claim C3 amended: the OI-change pair (2nd and 12th columns, letters B
and L) receives the zero-anchored 9DC3E6→FFFFFF→1F4E79 scale, while the
notional-flow pair CE/PE MONEY (4th and 10th columns, letters D and J)
receives the zero-anchored F8696B→FFEB84→63BE7B scale. -/
theorem claim_C3_amended :
    (columnLetter 2 = "B" ∧ final_order.getD 1 "" = "CE OI CHANGE" ∧
     columnLetter 12 = "L" ∧ final_order.getD 11 "" = "PE OI CHANGE" ∧
     columnLetter 4 = "D" ∧ final_order.getD 3 "" = "CE MONEY" ∧
     columnLetter 10 = "J" ∧ final_order.getD 9 "" = "PE MONEY") ∧
    (ruleFor "B" =
      some { start_type := "min", start_color := "9DC3E6", mid_type := "num", mid_value := 0,
             mid_color := "FFFFFF", end_type := "max", end_color := "1F4E79" } ∧
     ruleFor "L" =
      some { start_type := "min", start_color := "9DC3E6", mid_type := "num", mid_value := 0,
             mid_color := "FFFFFF", end_type := "max", end_color := "1F4E79" }) ∧
    (ruleFor "D" =
      some { start_type := "min", start_color := "F8696B", mid_type := "num", mid_value := 0,
             mid_color := "FFEB84", end_type := "max", end_color := "63BE7B" } ∧
     ruleFor "J" =
      some { start_type := "min", start_color := "F8696B", mid_type := "num", mid_value := 0,
             mid_color := "FFEB84", end_type := "max", end_color := "63BE7B" }) := by
  decide

/-- Membership in the fill trace of the cell-formatting loop forces a
header-row fill. -/
theorem mem_fills_aux {ncols : ℕ} {rs : List ℕ} {x : ℕ × ℕ × String}
    (h : x ∈ rs.foldr
      (fun r acc =>
        ((List.range' 1 ncols).filterMap fun c => (cell_fill r).map fun f => (r, c, f)) ++ acc)
      []) :
    x.1 = 1 ∧ x.2.2 = "4F81BD" := by
  induction rs with
  | nil => cases h
  | cons r rs ih =>
    rw [List.foldr_cons] at h
    rcases List.mem_append.mp h with hb | ht
    · rcases List.mem_filterMap.mp hb with ⟨c, _, hmap⟩
      unfold cell_fill at hmap
      by_cases hr : r = 1
      · subst hr
        rw [if_pos rfl] at hmap
        cases hmap
        exact ⟨rfl, rfl⟩
      · rw [if_neg hr] at hmap
        cases hmap
    · exact ih ht

/-- Claim C4 counterexample: on a 5-row table the spec's joint-top-4
selector picks rows 1, 2 and 3, the breakeven column CE BEP is the 5th
output column, yet `apply_formatting` fills only header-row cells — no
breakeven-price cell of any selected row is highlighted. -/
theorem claim_C4_counterexample :
    joint_top_k [10, 9, 8, 7, 6] [6, 7, 8, 9, 10] 4 = [1, 2, 3] ∧
    final_order.getD 4 "" = "CE BEP" ∧
    (applied_fills 5 12).all (fun e => e.1 == 1 && e.2.2 == "4F81BD") = true ∧
    ¬ (2, 5, "FFD966") ∈ applied_fills 5 12 := by
  decide

/-- Claim C4 amended: the source has no joint-top-k highlight selector;
every background fill applied by `apply_formatting` is the header fill on
row 1, so no breakeven-price cell is ever highlighted. -/
theorem claim_C4_amended (nrows ncols r c : ℕ) (f : String)
    (h : (r, c, f) ∈ applied_fills nrows ncols) : r = 1 ∧ f = "4F81BD" :=
  mem_fills_aux h

/-- Witness for C4's amended statement at the header fill of cell B1. -/
theorem claim_C4_amended_witness : (1 : ℕ) = 1 ∧ "4F81BD" = "4F81BD" :=
  claim_C4_amended 5 12 1 2 "4F81BD" (by decide)

/-- Claim C5: non-numeric cells coerce to the missing marker instead of
raising, and missing operands propagate: a missing CE VWAP makes both
CE MONEY and CE BEP missing for that row, never zero. -/
theorem claim_C5 :
    to_numeric (Cell.str "not a number") = none ∧
    (∀ (e : Extracted) (i : ℕ), i < e.ceOiChg.length → i < e.strike.length →
      e.ceVwap[i]? = some none →
      (∃ m, getCol (build_out e) "CE MONEY" = some (.nums m) ∧ m[i]? = some none) ∧
      (∃ b, getCol (build_out e) "CE BEP" = some (.nums b) ∧ b[i]? = some none)) := by
  refine ⟨by decide, fun e i hi hs hv =>
    ⟨⟨_, rfl, money_col_getElem?_none hi hv⟩, ⟨_, rfl, bep_col_getElem?_none hs hv⟩⟩⟩

/-- Witness for C5 at a concrete row with missing CE VWAP. -/
theorem claim_C5_witness :
    (∃ m, getCol (build_out missing_vwap_row) "CE MONEY" = some (.nums m) ∧
      m[0]? = some none) ∧
    (∃ b, getCol (build_out missing_vwap_row) "CE BEP" = some (.nums b) ∧
      b[0]? = some none) :=
  claim_C5.2 missing_vwap_row 0 (by decide) (by decide) rfl

/-- Claim C6 counterexample: a 2-row input (banner plus full header, no
data) has fewer than 3 rows yet raises nothing — the pipeline returns an
empty 12-column table, refuting "structural error iff fewer than 3 rows". -/
theorem claim_C6_counterexample :
    two_row_table.length < 3 ∧
    ¬ process_option_chain_web two_row_table = .error PipeError.indexError ∧
    process_option_chain_web two_row_table =
      .ok [("Time", .cells []), ("CE OI CHANGE", .nums []), ("CE OI", .nums []),
           ("CE MONEY", .nums []), ("CE BEP", .nums []), ("CE VWAP", .nums []),
           ("Strike Price", .nums []), ("PE VWAP", .nums []), ("PE BEP", .nums []),
           ("PE MONEY", .nums []), ("PE OI", .nums []), ("PE OI CHANGE", .nums [])] := by
  refine ⟨by decide, by decide, by decide⟩

/-- Claim C6 amended: the pipeline raises the structural error exactly when
the input has fewer than 2 rows (no header row to read); a 2-row input
succeeds with an empty data block.  Errors are returned as the sole result,
so an aborted invocation produces no partial table. -/
theorem claim_C6_amended (raw : List (List Cell)) :
    process_option_chain_web raw = .error .indexError ↔ raw.length < 2 :=
  process_web_index_iff raw

/-- Witness for C6's amended statement on the empty table. -/
theorem claim_C6_amended_witness :
    process_option_chain_web [] = .error .indexError :=
  (claim_C6_amended []).mpr (by decide)

/-- Claim C7: a successful run yields exactly the 12 canonical columns in
fixed order, every column has one entry per input data row (rows at raw
index ≥ 2), and the Time column is the data block at the first resolved
Time position, in input row order. -/
theorem claim_C7 (raw : List (List Cell)) (t : List (String × OutCol))
    (h : process_option_chain_web raw = .ok t) :
    (t.map fun p => p.1) = final_order ∧
    (∀ p ∈ t, colLen p.2 = raw.length - 2) ∧
    (∀ tp ps, col_positions_web (headersWeb (raw.getD 1 [])) "Time" = tp :: ps →
      getCol t "Time" = some (.cells (colAt (raw.drop 2) tp))) := by
  obtain ⟨ts, sc, oc1, oc2, vc1, vc2, pc1, pc2, h1, h2, h3, h4, h5, h6, h7, h8, ht⟩ :=
    process_web_ok_inv h
  have l1 : ts.length = raw.length - 2 := by
    rw [series_by_pos_ok_length h1, List.length_drop]
  have l2 : (sc.map to_numeric).length = raw.length - 2 := by
    rw [List.length_map, series_by_pos_ok_length h2, List.length_drop]
  have l3 : (oc1.map to_numeric).length = raw.length - 2 := by
    rw [List.length_map, series_by_pos_ok_length h3, List.length_drop]
  have l4 : (oc2.map to_numeric).length = raw.length - 2 := by
    rw [List.length_map, series_by_pos_ok_length h4, List.length_drop]
  have l5 : (vc1.map to_numeric).length = raw.length - 2 := by
    rw [List.length_map, series_by_pos_ok_length h5, List.length_drop]
  have l6 : (vc2.map to_numeric).length = raw.length - 2 := by
    rw [List.length_map, series_by_pos_ok_length h6, List.length_drop]
  have l7 : (pc1.map to_numeric).length = raw.length - 2 := by
    rw [List.length_map, series_by_pos_ok_length h7, List.length_drop]
  have l8 : (pc2.map to_numeric).length = raw.length - 2 := by
    rw [List.length_map, series_by_pos_ok_length h8, List.length_drop]
  subst ht
  refine ⟨reorder_build_out_names _, ?_, ?_⟩
  · intro p hp
    rw [reorder_build_out_eq] at hp
    simp only [List.mem_cons, List.not_mem_nil, or_false] at hp
    rcases hp with rfl | rfl | rfl | rfl | rfl | rfl | rfl | rfl | rfl | rfl | rfl | rfl <;>
      simp [colLen, sRound_length, sDivC_length, sMul_length, sAdd_length, sSub_length,
        l1, l2, l3, l4, l5, l6, l7, l8]
  · intro tp ps hpos
    have hshape := series_by_pos_core_ok_shape h1
    rw [reorder_build_out_eq]
    show some (OutCol.cells ts) = some (OutCol.cells (colAt (raw.drop 2) tp))
    rw [hshape, hpos]
    rfl

/-- Witness for C7 on a concrete 3-row table. -/
theorem claim_C7_witness :
    (three_row_out.map fun p => p.1) = final_order :=
  (claim_C7 three_row_table three_row_out (by decide)).1

/-- Claim C8 counterexample: a header cell `" X "` is non-blank after
trimming, but the resolver records the trimmed name `"X"`, not the verbatim
cell content `" X "`. -/
theorem claim_C8_counterexample :
    headersWeb [Cell.str " X ", Cell.nan] = ["X", "Column_1"] ∧
    ¬ headersWeb [Cell.str " X ", Cell.nan] = [" X ", "Column_1"] := by
  decide

theorem column_name_ne_empty (i : ℕ) : ¬ ("Column_" ++ toString i) = "" := by
  intro h
  have hlen := congrArg String.length h
  rw [String.length_append] at hlen
  have h7 : ("Column_" : String).length = 7 := rfl
  have h0 : ("" : String).length = 0 := rfl
  rw [h7, h0] at hlen
  omega

/-- Claim C8 amended: the Header Resolver reads row index 1; a present,
non-blank-after-trimming cell contributes its trimmed content as the column
name, a blank or missing cell yields exactly `Column_<p>`, and every
position gets a non-empty name. -/
theorem claim_C8_amended (row : List Cell) (i : ℕ) (c : Cell) (h : row[i]? = some c) :
    ∃ n, (headersWeb row)[i]? = some n ∧ ¬ n = "" ∧
      ((c = Cell.nan ∨ strip c.toStr = "") → n = "Column_" ++ toString i) ∧
      (∀ s, c = Cell.str s → ¬ strip s = "" → n = strip s) := by
  refine ⟨clean_header i c, ?_, ?_, ?_, ?_⟩
  · rw [headersWeb_getElem?, h]
    rfl
  · unfold clean_header
    by_cases hc : (c.notna && !(strip c.toStr == "")) = true
    · rw [if_pos hc]
      have h2 := (Bool.and_eq_true _ _).mp hc
      intro he
      rw [he] at h2
      simp at h2
    · rw [if_neg hc]
      exact column_name_ne_empty i
  · intro hcase
    rcases hcase with rfl | hblank
    · rfl
    · unfold clean_header
      rw [hblank]
      simp
  · intro s hs hnb
    subst hs
    exact clean_header_str hnb

/-- Witness for C8's amended statement at a missing header cell. -/
theorem claim_C8_witness :
    ([Cell.str " X ", Cell.nan][1]? = some Cell.nan) ∧
    (∃ n, (headersWeb [Cell.str " X ", Cell.nan])[1]? = some n ∧ ¬ n = "" ∧
      ((Cell.nan = Cell.nan ∨ strip (Cell.toStr Cell.nan) = "") → n = "Column_" ++ toString 1) ∧
      (∀ s, Cell.nan = Cell.str s → ¬ strip s = "" → n = strip s)) :=
  ⟨rfl, claim_C8_amended [Cell.str " X ", Cell.nan] 1 Cell.nan rfl⟩

/-- Claim C9 counterexample: for the CE OI column the spreadsheet uses the
percentile-anchored F5F5DC/FFA07A/786C3B scale while the preview uses the
range-midpoint FFF2CC/F4B183/8B4513 colormap — different anchors and
different colour triples, so the two surfaces do not produce the same
colour for the same value. -/
theorem claim_C9_counterexample :
    excel_scale "CE OI" =
      some { policy := .percentile50Mid, lo := "F5F5DC", mid := "FFA07A", hi := "786C3B" } ∧
    preview_scale "CE OI" =
      some { policy := .rangeMid, lo := "FFF2CC", mid := "F4B183", hi := "8B4513" } ∧
    ¬ excel_scale "CE OI" = preview_scale "CE OI" := by
  decide

/-- Claim C9 amended: the two surfaces share colour triples on the
OI-change and MONEY pairs but differ on the OI pair, and their anchor
policies differ on all six scaled columns (fixed-zero or percentile in the
spreadsheet vs. range midpoint in the preview), so colour equality across
surfaces is not guaranteed. -/
theorem claim_C9_amended :
    (∀ name ∈ ["CE OI CHANGE", "PE OI CHANGE", "CE MONEY", "PE MONEY"],
      (excel_scale name).map (fun s => (s.lo, s.mid, s.hi)) =
        (preview_scale name).map fun s => (s.lo, s.mid, s.hi)) ∧
    (∀ name ∈ ["CE OI", "PE OI"],
      ¬ (excel_scale name).map (fun s => (s.lo, s.mid, s.hi)) =
        (preview_scale name).map fun s => (s.lo, s.mid, s.hi)) ∧
    (∀ name ∈ ["CE OI CHANGE", "PE OI CHANGE", "CE OI", "PE OI", "CE MONEY", "PE MONEY"],
      ¬ (excel_scale name).map (fun s => s.policy) =
        (preview_scale name).map fun s => s.policy) := by
  decide

/-- Witness for C9's amended statement at the CE OI column. -/
theorem claim_C9_amended_witness :
    ¬ (excel_scale "CE OI").map (fun s => s.policy) =
      (preview_scale "CE OI").map fun s => s.policy :=
  claim_C9_amended.2.2 "CE OI" (by decide)

/-- Claim C10: on any raw table whose header row holds only non-blank
string cells, the web and desktop `process_option_chain` produce identical
canonical tables (and identical errors). -/
theorem claim_C10 (raw : List (List Cell))
    (h : (raw.getD 1 []).all isNonBlankStr = true) :
    process_option_chain_web raw = process_option_chain_desktop raw :=
  process_agree h

/-- Witness for C10 on a concrete 3-row table. -/
theorem claim_C10_witness :
    process_option_chain_web three_row_table = process_option_chain_desktop three_row_table :=
  claim_C10 three_row_table (by decide)

end OCF
